import Mathlib

/-
  Shallow embedding of the jurisdiction crate: the build-time classification
  compiler (build.rs), the Definition table and registry (src/definition.rs),
  and the Jurisdiction handle operations (src/jurisdiction.rs).
-/

namespace Juris

/-- UN M49 top-level region classification, from src/region.rs. -/
inductive Region where
  | Africa | Asia | Europe | Oceania | Americas
  | Undefined
deriving DecidableEq

/-- UN M49 sub-region classification, from src/region.rs. -/
inductive SubRegion where
  | NorthernAfrica | SubSaharanAfrica
  | EasternAsia | SouthernAsia | SouthEasternAsia | WesternAsia | CentralAsia
  | NorthernAmerica | LatinAmericaAndTheCaribbean
  | NorthernEurope | EasternEurope | SouthernEurope | WesternEurope
  | Polynesia | Melanesia | Micronesia | AustraliaAndNewZealand
  | Undefined
deriving DecidableEq

/-- UN M49 intermediate-region classification, from src/region.rs. -/
inductive IntermediateRegion where
  | EasternAfrica | MiddleAfrica | SouthernAfrica | WesternAfrica
  | Caribbean | CentralAmerica | SouthAmerica
  | ChannelIslands
  | Undefined
deriving DecidableEq

/-- One raw record of the Record Feed, as decoded by build.rs into
CountryRegionDefinition: the hierarchy name fields are already mapped to the
closed enumerations by the feed decoder (with Undefined for unknown names),
while the four numeric code fields arrive as raw strings. -/
structure Record where
  name : String
  alpha2 : String
  alpha3 : String
  country_code : String
  iso_3166_2 : String
  region : Region
  sub_region : SubRegion
  intermediate_region : IntermediateRegion
  region_code : String
  sub_region_code : String
  intermediate_region_code : String
deriving DecidableEq

/-- A value of the generated Alpha2 enumeration, represented by the name of
its variant, which build.rs takes verbatim from the alpha2 field of a record.
The serde_plain Display of a variant is exactly this name. -/
structure Alpha2 where
  code : String
deriving DecidableEq

/-- A value of the generated Alpha3 enumeration, represented by its variant
name, taken verbatim from the alpha3 field of a record. -/
structure Alpha3 where
  code : String
deriving DecidableEq

/-- Canonical textual form of an Alpha2 value: the generated Display
implementation prints the serde_plain serialization, which is the variant
name itself. -/
def Alpha2.display (a : Alpha2) : String :=
  a.code

/-- Canonical textual form of an Alpha3 value (the variant name). -/
def Alpha3.display (a : Alpha3) : String :=
  a.code

/-- The compiled Definition record, from src/definition.rs (with the region
feature enabled, so all hierarchy fields are present). -/
structure Definition where
  country_code : Nat
  name : String
  alpha2 : Alpha2
  alpha3 : Alpha3
  region : Region
  sub_region : SubRegion
  intermediate_region : IntermediateRegion
  region_code : Nat
  sub_region_code : Nat
  intermediate_region_code : Option Nat
deriving DecidableEq

/-- Numeric value of an ASCII decimal digit. -/
def charDigit (c : Char) : Option Nat :=
  if c.toNat ≥ 48 ∧ c.toNat ≤ 57 then some (c.toNat - 48) else none

/-- Accumulate the decimal value of a digit string; fails at the first
non-digit character, mirroring the character loop of integer FromStr. -/
def digitsVal (acc : Nat) : List Char → Option Nat
  | [] => some acc
  | c :: cs =>
    match charDigit c with
    | some d => digitsVal (10 * acc + d) cs
    | none => none

/-- Model of u16::from_str from the Rust standard library, as used by
build.rs on the numeric code strings: an optional leading plus sign, then at
least one ASCII digit, value at most 65535; anything else fails. -/
def parseU16 (s : String) : Option Nat :=
  let cs := match s.data with
    | '+' :: rest => rest
    | other => other
  match cs with
  | [] => none
  | _ =>
    match digitsVal 0 cs with
    | some n => if n < 65536 then some n else none
    | none => none

/-- Model of the per-record body of generate_definition in build.rs:
the country code must parse as u16 (otherwise the build panics, modelled by
none); the region and sub-region codes fall back to 0 when they fail to
parse (unwrap_or(0)); the intermediate-region code falls back to 0 likewise,
and the value 0 is then translated to None. -/
def generate_definition (r : Record) : Option Definition :=
  match parseU16 r.country_code with
  | none => none
  | some cc =>
    let rc := (parseU16 r.region_code).getD 0
    let sc := (parseU16 r.sub_region_code).getD 0
    let irc0 := (parseU16 r.intermediate_region_code).getD 0
    let irc : Option Nat := if irc0 = 0 then none else some irc0
    some { country_code := cc, name := r.name,
           alpha2 := ⟨r.alpha2⟩, alpha3 := ⟨r.alpha3⟩,
           region := r.region, sub_region := r.sub_region,
           intermediate_region := r.intermediate_region,
           region_code := rc, sub_region_code := sc,
           intermediate_region_code := irc }

/-- The compiler pass producing GENERATED_DEFINITIONS: one Definition per
record, in feed order; a panic on any record (country code failing to parse
as u16) aborts the whole build, so no table is produced. -/
def compile : List Record → Option (List Definition)
  | [] => some []
  | r :: rest =>
    (generate_definition r).bind (fun d =>
      (compile rest).map (fun ds => d :: ds))

/-- Model of the DEFINITIONS lazy static of src/definition.rs: a hash map
populated by inserting every compiled Definition in table order, keyed by
country_code. A later insert overwrites an earlier one with the same key, so
a lookup returns the last Definition in table order bearing the code. -/
def registryLookup (defs : List Definition) (cc : Nat) : Option Definition :=
  defs.reverse.find? (fun d => d.country_code == cc)

/-- Jurisdiction::new from src/jurisdiction.rs: resolve a numeric country
code through the registry. The unwrap panics when the code is absent,
modelled by none. -/
def jurisdictionNew (defs : List Definition) (cc : Nat) : Option Definition :=
  registryLookup defs cc

/-- serde_plain parsing of the generated Alpha2 enumeration: the input must
match a variant name exactly (case- and form-sensitive); every variant name
is the alpha2 string of a feed record. -/
def alpha2FromString (feed : List Record) (s : String) : Option Alpha2 :=
  if feed.any (fun r => decide (r.alpha2 = s)) then some ⟨s⟩ else none

/-- serde_plain parsing of the generated Alpha3 enumeration. -/
def alpha3FromString (feed : List Record) (s : String) : Option Alpha3 :=
  if feed.any (fun r => decide (r.alpha3 = s)) then some ⟨s⟩ else none

/-- The generated match of the From impl for Alpha2: the arm for a variant
yields the u16 country code of the record that introduced the variant.
Represented by locating the first feed record bearing the variant name and
parsing its country code, both of which succeed for every genuine variant
of a successfully generated enumeration. -/
def alpha2CountryCode (feed : List Record) (a : Alpha2) : Option Nat :=
  (feed.find? (fun r => decide (r.alpha2 = a.code))).bind
    (fun r => parseU16 r.country_code)

/-- The generated match of the From impl for Alpha3. -/
def alpha3CountryCode (feed : List Record) (a : Alpha3) : Option Nat :=
  (feed.find? (fun r => decide (r.alpha3 = a.code))).bind
    (fun r => parseU16 r.country_code)

/-- From Alpha2 for Jurisdiction: extract the country code implied by the
variant, then resolve through the registry with Jurisdiction::new. -/
def jurisdictionFromAlpha2 (feed : List Record) (defs : List Definition)
    (a : Alpha2) : Option Definition :=
  (alpha2CountryCode feed a).bind (fun cc => jurisdictionNew defs cc)

/-- From Alpha3 for Jurisdiction. -/
def jurisdictionFromAlpha3 (feed : List Record) (defs : List Definition)
    (a : Alpha3) : Option Definition :=
  (alpha3CountryCode feed a).bind (fun cc => jurisdictionNew defs cc)

/-- The error message built by from_str for an unrecognized code; the
offending text is appended to the fixed prefix. -/
def unrecognizedMsg (s : String) : String :=
  "unrecognized ISO 3166 alpha country code: " ++ s

/-- FromStr for Jurisdiction: attempt the Alpha2 parse first, then the
Alpha3 parse, and on double failure return the unrecognized-code error
carrying the offending text. The outer Option models the internal panics of
Jurisdiction::new, which never fire for a genuine compiled artifact; the
Except layer is the caller-facing Result. -/
def jurisdictionFromStr (feed : List Record) (defs : List Definition)
    (s : String) : Option (Except String Definition) :=
  match alpha2FromString feed s with
  | some a => (jurisdictionFromAlpha2 feed defs a).map Except.ok
  | none =>
    match alpha3FromString feed s with
    | some a => (jurisdictionFromAlpha3 feed defs a).map Except.ok
    | none => some (Except.error (unrecognizedMsg s))

/-- PartialEq between two Jurisdiction handles: numeric country code
equality, from src/jurisdiction.rs. -/
def jurisdictionEq (a b : Definition) : Bool :=
  a.country_code == b.country_code

/-- PartialEq between a handle and a bare Alpha2 value: the alpha2 field of
the underlying Definition is compared with the given variant. -/
def jurisdictionEqAlpha2 (a : Definition) (c : Alpha2) : Bool :=
  decide (a.alpha2 = c)

/-- PartialEq between a handle and a bare Alpha3 value. -/
def jurisdictionEqAlpha3 (a : Definition) (c : Alpha3) : Bool :=
  decide (a.alpha3 = c)

/-- The country codes collected by generate_region for one reverse-index
bucket: the feed is traversed in order and the code of every matching
record is pushed, each parsed with the same fatal expect as elsewhere. -/
def parseCodes : List Record → Option (List Nat)
  | [] => some []
  | r :: rest =>
    (parseU16 r.country_code).bind (fun c =>
      (parseCodes rest).map (fun cs => c :: cs))

/-- The body of a generated jurisdictions() match arm at runtime: each
stored country code is resolved through Jurisdiction::new. -/
def resolveAll (defs : List Definition) : List Nat → Option (List Definition)
  | [] => some []
  | c :: cs =>
    (jurisdictionNew defs c).bind (fun d =>
      (resolveAll defs cs).map (fun ds => d :: ds))

/-- Jurisdiction::in_region: the precomputed bucket of country codes for the
given Region value, resolved to handles through the registry. -/
def in_region (feed : List Record) (defs : List Definition) (v : Region) :
    Option (List Definition) :=
  (parseCodes (feed.filter (fun r => decide (r.region = v)))).bind
    (resolveAll defs)

/-- Jurisdiction::in_sub_region. -/
def in_sub_region (feed : List Record) (defs : List Definition)
    (v : SubRegion) : Option (List Definition) :=
  (parseCodes (feed.filter (fun r => decide (r.sub_region = v)))).bind
    (resolveAll defs)

/-- Jurisdiction::in_intermediate_region. -/
def in_intermediate_region (feed : List Record) (defs : List Definition)
    (v : IntermediateRegion) : Option (List Definition) :=
  (parseCodes (feed.filter (fun r => decide (r.intermediate_region = v)))).bind
    (resolveAll defs)

/-- Relation between a feed record and the Definition generated from it. -/
def gen (r : Record) (d : Definition) : Prop :=
  generate_definition r = some d

/-- Concrete feed record for Norway, as in the dataset and the crate tests:
no intermediate region, so the intermediate-region numeric code is empty. -/
def noRecord : Record :=
  { name := "Norway", alpha2 := "NO", alpha3 := "NOR", country_code := "578",
    iso_3166_2 := "ISO 3166-2:NO", region := .Europe,
    sub_region := .NorthernEurope, intermediate_region := .Undefined,
    region_code := "150", sub_region_code := "154",
    intermediate_region_code := "" }

/-- Concrete feed record with an intermediate region whose numeric code is
911, exercising the Some branch of the sentinel translation. -/
def jeRecord : Record :=
  { name := "Jersey", alpha2 := "JE", alpha3 := "JEY", country_code := "832",
    iso_3166_2 := "ISO 3166-2:JE", region := .Europe,
    sub_region := .NorthernEurope, intermediate_region := .ChannelIslands,
    region_code := "150", sub_region_code := "154",
    intermediate_region_code := "911" }

/-- A two-record feed used to instantiate the general theorems. -/
def sampleFeed : List Record := [noRecord, jeRecord]

/-- The Definition compiled from noRecord. -/
def noDef : Definition :=
  { country_code := 578, name := "Norway", alpha2 := ⟨"NO"⟩,
    alpha3 := ⟨"NOR"⟩, region := .Europe, sub_region := .NorthernEurope,
    intermediate_region := .Undefined, region_code := 150,
    sub_region_code := 154, intermediate_region_code := none }

/-- The Definition compiled from jeRecord. -/
def jeDef : Definition :=
  { country_code := 832, name := "Jersey", alpha2 := ⟨"JE"⟩,
    alpha3 := ⟨"JEY"⟩, region := .Europe, sub_region := .NorthernEurope,
    intermediate_region := .ChannelIslands, region_code := 150,
    sub_region_code := 154, intermediate_region_code := some 911 }

/-- The compiled table of sampleFeed. -/
def sampleDefs : List Definition := [noDef, jeDef]

/-- A record whose region numeric code is not a number at all. -/
def badRegionCodeRecord : Record :=
  { noRecord with region_code := "abc" }

/-- The Definition the compiler produces from badRegionCodeRecord: the
unparseable region code silently becomes 0. -/
def badRegionCodeDef : Definition :=
  { noDef with region_code := 0 }

/-- A second record carrying the same numeric country code as noRecord but
distinct alpha codes. -/
def dupRecord : Record :=
  { jeRecord with country_code := "578" }

/-- The Definition compiled from dupRecord. -/
def dupDef : Definition :=
  { jeDef with country_code := 578 }

/-- A record whose country code string is not numeric. -/
def badCcRecord : Record :=
  { noRecord with country_code := "notanumber" }






theorem gen_spec {r : Record} {d : Definition}
    (h : gen r d) :
    parseU16 r.country_code = some d.country_code ∧
    d.name = r.name ∧ d.alpha2 = ⟨r.alpha2⟩ ∧ d.alpha3 = ⟨r.alpha3⟩ ∧
    d.region = r.region ∧ d.sub_region = r.sub_region ∧
    d.intermediate_region = r.intermediate_region ∧
    d.region_code = (parseU16 r.region_code).getD 0 ∧
    d.sub_region_code = (parseU16 r.sub_region_code).getD 0 ∧
    d.intermediate_region_code =
      (if (parseU16 r.intermediate_region_code).getD 0 = 0 then none
       else some ((parseU16 r.intermediate_region_code).getD 0)) := by
  unfold gen generate_definition at h
  cases hp : parseU16 r.country_code with
  | none => rw [hp] at h; exact absurd h (by simp)
  | some cc =>
    rw [hp] at h
    simp only [Option.some.injEq] at h
    subst h
    exact ⟨rfl, rfl, rfl, rfl, rfl, rfl, rfl, rfl, rfl, rfl⟩

theorem compile_forall2 : ∀ {feed : List Record} {defs : List Definition},
    compile feed = some defs → List.Forall₂ gen feed defs := by
  intro feed
  induction feed with
  | nil =>
    intro defs h
    simp only [compile, Option.some.injEq] at h
    subst h
    exact List.Forall₂.nil
  | cons r rest ih =>
    intro defs h
    simp only [compile] at h
    cases hg : generate_definition r with
    | none => rw [hg] at h; simp at h
    | some d =>
      rw [hg] at h
      cases hc : compile rest with
      | none => rw [hc] at h; simp at h
      | some ds =>
        rw [hc] at h
        simp only [Option.bind, Option.map, Option.some.injEq] at h
        subst h
        exact List.Forall₂.cons hg (ih hc)

theorem find_cc_of_nodup : ∀ {l : List Definition} {d : Definition},
    (l.map Definition.country_code).Nodup → d ∈ l →
    l.find? (fun x => x.country_code == d.country_code) = some d := by
  intro l
  induction l with
  | nil => intro d _ hm; simp at hm
  | cons x xs ih =>
    intro d hnd hm
    rw [List.map_cons, List.nodup_cons] at hnd
    rcases List.mem_cons.mp hm with rfl | hm2
    · simp [List.find?]
    · have hne : (x.country_code == d.country_code) = false := by
        simp only [beq_eq_false_iff_ne, ne_eq]
        intro he
        exact hnd.1 (he ▸ List.mem_map_of_mem Definition.country_code hm2)
      rw [List.find?, hne]
      exact ih hnd.2 hm2

theorem registryLookup_mem {defs : List Definition} {d : Definition}
    (hnd : (defs.map Definition.country_code).Nodup) (hm : d ∈ defs) :
    registryLookup defs d.country_code = some d := by
  unfold registryLookup
  apply find_cc_of_nodup
  · rw [List.map_reverse]
    exact List.nodup_reverse.mpr hnd
  · exact List.mem_reverse.mpr hm

theorem registryLookup_isSome : ∀ {defs : List Definition} {d : Definition},
    d ∈ defs → (registryLookup defs d.country_code).isSome := by
  intro defs d hm
  unfold registryLookup
  rw [List.find?_isSome]
  exact ⟨d, List.mem_reverse.mpr hm, by simp⟩

theorem forall2_mem_left : ∀ {fl : List Record} {dl : List Definition},
    List.Forall₂ gen fl dl → ∀ {r : Record}, r ∈ fl →
    ∃ d ∈ dl, gen r d := by
  intro fl dl h
  induction h with
  | nil => intro r hm; simp at hm
  | cons hrd _ ih =>
    intro r hm
    rcases List.mem_cons.mp hm with rfl | hm2
    · exact ⟨_, List.mem_cons_self _ _, hrd⟩
    · obtain ⟨d, hd, hg⟩ := ih hm2
      exact ⟨d, List.mem_cons_of_mem _ hd, hg⟩

theorem forall2_mem_right : ∀ {fl : List Record} {dl : List Definition},
    List.Forall₂ gen fl dl → ∀ {d : Definition}, d ∈ dl →
    ∃ r ∈ fl, gen r d := by
  intro fl dl h
  induction h with
  | nil => intro d hm; simp at hm
  | cons hrd _ ih =>
    intro d hm
    rcases List.mem_cons.mp hm with rfl | hm2
    · exact ⟨_, List.mem_cons_self _ _, hrd⟩
    · obtain ⟨r, hr, hg⟩ := ih hm2
      exact ⟨r, List.mem_cons_of_mem _ hr, hg⟩

theorem forall2_filter {pr : Record → Bool} {pd : Definition → Bool}
    (hp : ∀ r d, gen r d → pr r = pd d) :
    ∀ {fl : List Record} {dl : List Definition}, List.Forall₂ gen fl dl →
    List.Forall₂ gen (fl.filter pr) (dl.filter pd) := by
  intro fl dl h
  induction h with
  | nil => exact List.Forall₂.nil
  | cons hrd htl ih =>
    rw [List.filter_cons, List.filter_cons, ← hp _ _ hrd]
    cases hpr : pr _ with
    | true => exact List.Forall₂.cons hrd ih
    | false => exact ih

theorem parseCodes_of_forall2 : ∀ {fl : List Record} {dl : List Definition},
    List.Forall₂ gen fl dl →
    parseCodes fl = some (dl.map Definition.country_code) := by
  intro fl dl h
  induction h with
  | nil => rfl
  | cons hrd _ ih =>
    rw [List.map_cons]
    simp only [parseCodes, (gen_spec hrd).1, ih, Option.bind, Option.map]

theorem resolveAll_map {defs : List Definition}
    (hnd : (defs.map Definition.country_code).Nodup) :
    ∀ {dl : List Definition}, (∀ d ∈ dl, d ∈ defs) →
    resolveAll defs (dl.map Definition.country_code) = some dl := by
  intro dl
  induction dl with
  | nil => intro _; rfl
  | cons d ds ih =>
    intro hsub
    have hd : jurisdictionNew defs d.country_code = some d :=
      registryLookup_mem hnd (hsub d (List.mem_cons_self _ _))
    have hds := ih (fun x hx => hsub x (List.mem_cons_of_mem _ hx))
    simp only [List.map_cons, resolveAll, hd, hds, Option.bind, Option.map]

theorem query_spec {feed : List Record} {defs : List Definition}
    (hc : compile feed = some defs)
    (hnd : (defs.map Definition.country_code).Nodup)
    {pr : Record → Bool} {pd : Definition → Bool}
    (hp : ∀ r d, gen r d → pr r = pd d) :
    (parseCodes (feed.filter pr)).bind (resolveAll defs) =
      some (defs.filter pd) ∧
    List.Forall₂ gen (feed.filter pr) (defs.filter pd) := by
  have F2 := compile_forall2 hc
  have F2f := forall2_filter hp F2
  have hpc := parseCodes_of_forall2 F2f
  have hmem : ∀ d ∈ defs.filter pd, d ∈ defs :=
    fun d hd => List.mem_of_mem_filter hd
  rw [hpc]
  refine ⟨?_, F2f⟩
  simp only [Option.bind]
  exact resolveAll_map hnd hmem




/-- C1: for every Definition D in a compiled table whose numeric country
codes are unique, resolving D.country_code through the Registry yields a
handle whose country_code, alpha2, alpha3, name and hierarchy fields all
equal the corresponding fields of D. -/
theorem c1_lookup_roundtrip (defs : List Definition)
    (hnd : (defs.map Definition.country_code).Nodup) :
    ∀ d ∈ defs, ∃ h, jurisdictionNew defs d.country_code = some h ∧
      h.country_code = d.country_code ∧ h.alpha2 = d.alpha2 ∧
      h.alpha3 = d.alpha3 ∧ h.name = d.name ∧ h.region = d.region ∧
      h.sub_region = d.sub_region ∧
      h.intermediate_region = d.intermediate_region ∧
      h.region_code = d.region_code ∧
      h.sub_region_code = d.sub_region_code ∧
      h.intermediate_region_code = d.intermediate_region_code := by
  intro d hm
  exact ⟨d, registryLookup_mem hnd hm, rfl, rfl, rfl, rfl, rfl, rfl, rfl,
    rfl, rfl, rfl⟩

/-- Witness for C1 on the concrete sample table at the Norway entry. -/
theorem c1_witness :
    (sampleDefs.map Definition.country_code).Nodup ∧
    (∃ h, jurisdictionNew sampleDefs noDef.country_code = some h ∧
      h.country_code = noDef.country_code ∧ h.alpha2 = noDef.alpha2 ∧
      h.alpha3 = noDef.alpha3 ∧ h.name = noDef.name ∧
      h.region = noDef.region ∧ h.sub_region = noDef.sub_region ∧
      h.intermediate_region = noDef.intermediate_region ∧
      h.region_code = noDef.region_code ∧
      h.sub_region_code = noDef.sub_region_code ∧
      h.intermediate_region_code = noDef.intermediate_region_code) :=
  ⟨by decide, c1_lookup_roundtrip sampleDefs (by decide) noDef (by decide)⟩

/-- C3: a string that is neither an alpha2 nor an alpha3 variant name makes
from_str fail with the unrecognized-code error, which carries the offending
text as a suffix; moreover the alpha2 parse is attempted first, so whenever
it succeeds the alpha3 parse is never consulted. -/
theorem c3_unrecognized (feed : List Record) (defs : List Definition)
    (s : String)
    (h2 : ∀ r ∈ feed, r.alpha2 ≠ s) (h3 : ∀ r ∈ feed, r.alpha3 ≠ s) :
    jurisdictionFromStr feed defs s =
      some (Except.error (unrecognizedMsg s)) ∧
    (∃ p, unrecognizedMsg s = p ++ s) ∧
    (∀ t a, alpha2FromString feed t = some a →
      jurisdictionFromStr feed defs t =
        (jurisdictionFromAlpha2 feed defs a).map Except.ok) := by
  refine ⟨?_, ⟨_, rfl⟩, ?_⟩
  · have hA : alpha2FromString feed s = none := by
      unfold alpha2FromString
      rw [if_neg]
      intro hany
      obtain ⟨r, hr, hp⟩ := List.any_eq_true.mp hany
      exact h2 r hr (of_decide_eq_true hp)
    have hB : alpha3FromString feed s = none := by
      unfold alpha3FromString
      rw [if_neg]
      intro hany
      obtain ⟨r, hr, hp⟩ := List.any_eq_true.mp hany
      exact h3 r hr (of_decide_eq_true hp)
    unfold jurisdictionFromStr
    rw [hA, hB]
  · intro t a ha
    unfold jurisdictionFromStr
    rw [ha]

/-- Witness for C3 on the sample feed and the text of the spec scenario. -/
theorem c3_witness :
    jurisdictionFromStr sampleFeed sampleDefs "ZZZ_not_a_code" =
      some (Except.error (unrecognizedMsg "ZZZ_not_a_code")) :=
  (c3_unrecognized sampleFeed sampleDefs "ZZZ_not_a_code"
    (by decide) (by decide)).1

/-- C6 as stated is false: a record whose region numeric code fails to parse
as u16 does not abort compilation; the compiler produces a Definition with
region code 0. -/
theorem c6_counterexample :
    parseU16 badRegionCodeRecord.region_code = none ∧
    compile [badRegionCodeRecord] = some [badRegionCodeDef] ∧
    badRegionCodeDef.region_code = 0 :=
  ⟨by decide, by decide, by decide⟩

/-- C6 amended: only a country code string failing to parse as u16 aborts
compilation; region and sub-region codes fall back to 0 silently, the
intermediate-region code falls back to 0, and an intermediate-region value
of 0 is translated to an absent value rather than an error. -/
theorem c6_amended_parse_policy :
    (∀ (feed : List Record) (r : Record), r ∈ feed →
      parseU16 r.country_code = none → compile feed = none) ∧
    (∀ r d, generate_definition r = some d →
      (parseU16 r.region_code = none → d.region_code = 0) ∧
      (parseU16 r.sub_region_code = none → d.sub_region_code = 0) ∧
      (parseU16 r.intermediate_region_code = none →
        d.intermediate_region_code = none)) ∧
    (∀ r d, generate_definition r = some d →
      parseU16 r.intermediate_region_code = some 0 →
      d.intermediate_region_code = none) := by
  refine ⟨?_, ?_, ?_⟩
  · intro feed
    induction feed with
    | nil => intro r hm; simp at hm
    | cons x rest ih =>
      intro r hm hp
      rcases List.mem_cons.mp hm with rfl | hm2
      · have hg : generate_definition r = none := by
          unfold generate_definition
          rw [hp]
        simp [compile, hg]
      · have hrest := ih r hm2 hp
        simp [compile, hrest]
  · intro r d hg
    obtain ⟨-, -, -, -, -, -, -, hrc, hsc, hirc⟩ := gen_spec hg
    refine ⟨?_, ?_, ?_⟩
    · intro hp; rw [hrc, hp]; rfl
    · intro hp; rw [hsc, hp]; rfl
    · intro hp; rw [hirc, hp]; rfl
  · intro r d hg hp
    obtain ⟨-, -, -, -, -, -, -, -, -, hirc⟩ := gen_spec hg
    rw [hirc, hp]
    rfl

/-- Witness for the amended C6 at concrete records. -/
theorem c6_witness :
    parseU16 badCcRecord.country_code = none ∧
    compile [badCcRecord] = none ∧
    parseU16 badRegionCodeRecord.region_code = none ∧
    badRegionCodeDef.region_code = 0 := by
  refine ⟨by decide,
    c6_amended_parse_policy.1 [badCcRecord] badCcRecord (by decide)
      (by decide),
    by decide,
    (c6_amended_parse_policy.2.1 badRegionCodeRecord badRegionCodeDef
      (by decide)).1 (by decide)⟩

/-- C7 as stated is false: a feed containing two records with the same
numeric country code compiles without any error, producing a full
Definition table. -/
theorem c7_counterexample :
    compile [noRecord, dupRecord] = some [noDef, dupDef] ∧
    noDef.country_code = dupDef.country_code :=
  ⟨by decide, by decide⟩

/-- C7 amended: the compiler performs no duplicate-country-code check, so
any two individually well-formed records compile as a feed, and the Registry
resolves a country code to the last Definition in table order bearing it
(later inserts overwrite earlier ones). -/
theorem c7_amended_no_duplicate_check :
    (∀ (r1 r2 : Record) (d1 d2 : Definition),
      generate_definition r1 = some d1 → generate_definition r2 = some d2 →
      compile [r1, r2] = some [d1, d2]) ∧
    (∀ (pre : List Definition) (d : Definition),
      registryLookup (pre ++ [d]) d.country_code = some d) := by
  constructor
  · intro r1 r2 d1 d2 h1 h2
    simp [compile, h1, h2]
  · intro pre d
    unfold registryLookup
    rw [List.reverse_append]
    simp [List.find?]

/-- Witness for the amended C7: the duplicated sample feed compiles and the
registry yields the later of the two duplicate definitions. -/
theorem c7_witness :
    compile [noRecord, dupRecord] ≠ none ∧
    registryLookup ([noDef] ++ [dupDef]) dupDef.country_code = some dupDef := by
  refine ⟨?_, c7_amended_no_duplicate_check.2 [noDef] dupDef⟩
  rw [c7_amended_no_duplicate_check.1 noRecord dupRecord noDef dupDef
    (by decide) (by decide)]
  simp

/-- C9: for a record whose intermediate-region code string parses to v, the
compiled intermediate_region_code is absent exactly when v is the sentinel 0
and is Some v otherwise; an empty code string likewise compiles to an absent
value. -/
theorem c9_sentinel (r : Record) (d : Definition)
    (hg : generate_definition r = some d) :
    (∀ v, parseU16 r.intermediate_region_code = some v →
      ((d.intermediate_region_code = none ↔ v = 0) ∧
       (v ≠ 0 → d.intermediate_region_code = some v))) ∧
    (r.intermediate_region_code = "" →
      d.intermediate_region_code = none) := by
  obtain ⟨-, -, -, -, -, -, -, -, -, hirc⟩ := gen_spec hg
  constructor
  · intro v hp
    rw [hirc, hp]
    simp only [Option.getD_some]
    constructor
    · constructor
      · intro hnone
        by_contra hv
        rw [if_neg hv] at hnone
        exact Option.some_ne_none v hnone
      · intro hv
        rw [if_pos hv]
    · intro hv
      rw [if_neg hv]
  · intro hp
    have : parseU16 r.intermediate_region_code = none := by
      rw [hp]; rfl
    rw [hirc, this]
    rfl

/-- Witness for C9: the 911 record yields Some 911 and the empty-code record
yields None. -/
theorem c9_witness :
    generate_definition jeRecord = some jeDef ∧
    parseU16 jeRecord.intermediate_region_code = some 911 ∧
    jeDef.intermediate_region_code = some 911 ∧
    noDef.intermediate_region_code = none := by
  refine ⟨by decide, by decide,
    ((c9_sentinel jeRecord jeDef (by decide)).1 911 (by decide)).2
      (by decide),
    (c9_sentinel noRecord noDef (by decide)).2 (by decide)⟩



theorem find_alpha2_exists {feed : List Record} {s : String}
    (hex : ∃ r ∈ feed, r.alpha2 = s) :
    ∃ r', feed.find? (fun x => decide (x.alpha2 = s)) = some r' ∧
      r' ∈ feed ∧ r'.alpha2 = s := by
  obtain ⟨r, hr, hra⟩ := hex
  have hs : (feed.find? (fun x => decide (x.alpha2 = s))).isSome := by
    rw [List.find?_isSome]
    exact ⟨r, hr, by simp [hra]⟩
  obtain ⟨r', hf⟩ := Option.isSome_iff_exists.mp hs
  have hp := List.find?_some hf
  simp only [decide_eq_true_eq] at hp
  exact ⟨r', hf, List.mem_of_find?_eq_some hf, hp⟩

theorem find_alpha3_exists {feed : List Record} {s : String}
    (hex : ∃ r ∈ feed, r.alpha3 = s) :
    ∃ r', feed.find? (fun x => decide (x.alpha3 = s)) = some r' ∧
      r' ∈ feed ∧ r'.alpha3 = s := by
  obtain ⟨r, hr, hra⟩ := hex
  have hs : (feed.find? (fun x => decide (x.alpha3 = s))).isSome := by
    rw [List.find?_isSome]
    exact ⟨r, hr, by simp [hra]⟩
  obtain ⟨r', hf⟩ := Option.isSome_iff_exists.mp hs
  have hp := List.find?_some hf
  simp only [decide_eq_true_eq] at hp
  exact ⟨r', hf, List.mem_of_find?_eq_some hf, hp⟩

theorem fromAlpha2_spec {feed : List Record} {defs : List Definition}
    (hc : compile feed = some defs) {s : String}
    (hex : ∃ r ∈ feed, r.alpha2 = s) :
    ∃ r' ∈ feed, r'.alpha2 = s ∧ ∃ d ∈ defs, gen r' d ∧
      alpha2CountryCode feed ⟨s⟩ = some d.country_code := by
  obtain ⟨r', hf, hm, hra⟩ := find_alpha2_exists hex
  obtain ⟨d, hdm, hg⟩ := forall2_mem_left (compile_forall2 hc) hm
  refine ⟨r', hm, hra, d, hdm, hg, ?_⟩
  show (feed.find? fun x => decide (x.alpha2 = s)).bind
    (fun x => parseU16 x.country_code) = some d.country_code
  rw [hf]
  simp only [Option.bind]
  exact (gen_spec hg).1

theorem fromAlpha3_spec {feed : List Record} {defs : List Definition}
    (hc : compile feed = some defs) {s : String}
    (hex : ∃ r ∈ feed, r.alpha3 = s) :
    ∃ r' ∈ feed, r'.alpha3 = s ∧ ∃ d ∈ defs, gen r' d ∧
      alpha3CountryCode feed ⟨s⟩ = some d.country_code := by
  obtain ⟨r', hf, hm, hra⟩ := find_alpha3_exists hex
  obtain ⟨d, hdm, hg⟩ := forall2_mem_left (compile_forall2 hc) hm
  refine ⟨r', hm, hra, d, hdm, hg, ?_⟩
  show (feed.find? fun x => decide (x.alpha3 = s)).bind
    (fun x => parseU16 x.country_code) = some d.country_code
  rw [hf]
  simp only [Option.bind]
  exact (gen_spec hg).1

theorem find_alpha2_of_nodup : ∀ {l : List Record} {r : Record},
    (l.map Record.alpha2).Nodup → r ∈ l →
    l.find? (fun x => decide (x.alpha2 = r.alpha2)) = some r := by
  intro l
  induction l with
  | nil => intro r _ hm; simp at hm
  | cons x xs ih =>
    intro r hnd hm
    rw [List.map_cons, List.nodup_cons] at hnd
    rcases List.mem_cons.mp hm with rfl | hm2
    · simp [List.find?]
    · have hne : (decide (x.alpha2 = r.alpha2)) = false := by
        simp only [decide_eq_false_iff_not]
        intro he
        exact hnd.1 (he ▸ List.mem_map_of_mem Record.alpha2 hm2)
      rw [List.find?, hne]
      exact ih hnd.2 hm2

theorem find_alpha3_of_nodup : ∀ {l : List Record} {r : Record},
    (l.map Record.alpha3).Nodup → r ∈ l →
    l.find? (fun x => decide (x.alpha3 = r.alpha3)) = some r := by
  intro l
  induction l with
  | nil => intro r _ hm; simp at hm
  | cons x xs ih =>
    intro r hnd hm
    rw [List.map_cons, List.nodup_cons] at hnd
    rcases List.mem_cons.mp hm with rfl | hm2
    · simp [List.find?]
    · have hne : (decide (x.alpha3 = r.alpha3)) = false := by
        simp only [decide_eq_false_iff_not]
        intro he
        exact hnd.1 (he ▸ List.mem_map_of_mem Record.alpha3 hm2)
      rw [List.find?, hne]
      exact ih hnd.2 hm2

/-- C2: every canonical alpha2 text parses through from_str to a handle
whose alpha2 value formats back to the same text, and likewise for every
canonical alpha3 text, for any compiled artifact with unique country codes
and the documented two- and three-letter code shapes. -/
theorem c2_roundtrip (feed : List Record) (defs : List Definition)
    (hc : compile feed = some defs)
    (hnd : (defs.map Definition.country_code).Nodup)
    (hlen : ∀ r ∈ feed, r.alpha2.length = 2 ∧ r.alpha3.length = 3) :
    (∀ T : String, (∃ r ∈ feed, r.alpha2 = T) →
      ∃ d, jurisdictionFromStr feed defs T = some (Except.ok d) ∧
        d.alpha2.display = T) ∧
    (∀ T : String, (∃ r ∈ feed, r.alpha3 = T) →
      ∃ d, jurisdictionFromStr feed defs T = some (Except.ok d) ∧
        d.alpha3.display = T) := by
  constructor
  · intro T hex
    obtain ⟨r', hm, hra, d, hdm, hg, hccEq⟩ := fromAlpha2_spec hc hex
    have hA2 : alpha2FromString feed T = some ⟨T⟩ := by
      unfold alpha2FromString
      obtain ⟨r, hr, hrr⟩ := hex
      rw [if_pos (List.any_eq_true.mpr ⟨r, hr, by simp [hrr]⟩)]
    have hnew : jurisdictionNew defs d.country_code = some d :=
      registryLookup_mem hnd hdm
    refine ⟨d, ?_, ?_⟩
    · unfold jurisdictionFromStr
      rw [hA2]
      show Option.map Except.ok
        ((alpha2CountryCode feed ⟨T⟩).bind fun cc =>
          jurisdictionNew defs cc) = some (Except.ok d)
      rw [hccEq]
      simp only [Option.bind]
      rw [hnew]
      rfl
    · have ha : d.alpha2 = ⟨r'.alpha2⟩ := (gen_spec hg).2.2.1
      simp [Alpha2.display, ha, hra]
  · intro T hex
    obtain ⟨r', hm, hra, d, hdm, hg, hccEq⟩ := fromAlpha3_spec hc hex
    have hA2n : alpha2FromString feed T = none := by
      unfold alpha2FromString
      rw [if_neg]
      intro hany
      obtain ⟨x, hx, hp⟩ := List.any_eq_true.mp hany
      have h1 : T.length = 2 := by
        rw [← of_decide_eq_true hp]
        exact (hlen x hx).1
      obtain ⟨r, hr, hrr⟩ := hex
      have h2 : T.length = 3 := by
        rw [← hrr]
        exact (hlen r hr).2
      omega
    have hA3 : alpha3FromString feed T = some ⟨T⟩ := by
      unfold alpha3FromString
      obtain ⟨r, hr, hrr⟩ := hex
      rw [if_pos (List.any_eq_true.mpr ⟨r, hr, by simp [hrr]⟩)]
    have hnew : jurisdictionNew defs d.country_code = some d :=
      registryLookup_mem hnd hdm
    refine ⟨d, ?_, ?_⟩
    · unfold jurisdictionFromStr
      rw [hA2n, hA3]
      show Option.map Except.ok
        ((alpha3CountryCode feed ⟨T⟩).bind fun cc =>
          jurisdictionNew defs cc) = some (Except.ok d)
      rw [hccEq]
      simp only [Option.bind]
      rw [hnew]
      rfl
    · have ha : d.alpha3 = ⟨r'.alpha3⟩ := (gen_spec hg).2.2.2.1
      simp [Alpha3.display, ha, hra]

/-- Witness for C2 at the concrete texts NO and NOR. -/
theorem c2_witness :
    (∃ d, jurisdictionFromStr sampleFeed sampleDefs "NO" =
      some (Except.ok d) ∧ d.alpha2.display = "NO") ∧
    (∃ d, jurisdictionFromStr sampleFeed sampleDefs "NOR" =
      some (Except.ok d) ∧ d.alpha3.display = "NOR") := by
  have h := c2_roundtrip sampleFeed sampleDefs (by decide) (by decide)
    (by decide)
  exact ⟨h.1 "NO" ⟨noRecord, by decide, rfl⟩,
    h.2 "NOR" ⟨noRecord, by decide, rfl⟩⟩

/-- C4: handle equality is numeric country code equality; the handles
obtained from the alpha2 and the alpha3 variant of the same record compare
equal; and comparison with a bare Alpha2 or Alpha3 value is equality of the
corresponding field of the handle. -/
theorem c4_equality (feed : List Record) (defs : List Definition)
    (hc : compile feed = some defs)
    (hnd : (defs.map Definition.country_code).Nodup)
    (h2nd : (feed.map Record.alpha2).Nodup)
    (h3nd : (feed.map Record.alpha3).Nodup) :
    (∀ a b : Definition,
      jurisdictionEq a b = true ↔ a.country_code = b.country_code) ∧
    (∀ r ∈ feed, ∃ h2 h3 : Definition,
      jurisdictionFromAlpha2 feed defs ⟨r.alpha2⟩ = some h2 ∧
      jurisdictionFromAlpha3 feed defs ⟨r.alpha3⟩ = some h3 ∧
      jurisdictionEq h2 h3 = true) ∧
    (∀ (h : Definition) (c : Alpha2),
      jurisdictionEqAlpha2 h c = true ↔ h.alpha2 = c) ∧
    (∀ (h : Definition) (c : Alpha3),
      jurisdictionEqAlpha3 h c = true ↔ h.alpha3 = c) := by
  refine ⟨?_, ?_, ?_, ?_⟩
  · intro a b
    simp [jurisdictionEq]
  · intro r hm
    obtain ⟨d, hdm, hg⟩ := forall2_mem_left (compile_forall2 hc) hm
    have hnew : jurisdictionNew defs d.country_code = some d :=
      registryLookup_mem hnd hdm
    have hcc2 : alpha2CountryCode feed ⟨r.alpha2⟩ = some d.country_code := by
      show (feed.find? fun x => decide (x.alpha2 = r.alpha2)).bind
        (fun x => parseU16 x.country_code) = some d.country_code
      rw [find_alpha2_of_nodup h2nd hm]
      simp only [Option.bind]
      exact (gen_spec hg).1
    have hcc3 : alpha3CountryCode feed ⟨r.alpha3⟩ = some d.country_code := by
      show (feed.find? fun x => decide (x.alpha3 = r.alpha3)).bind
        (fun x => parseU16 x.country_code) = some d.country_code
      rw [find_alpha3_of_nodup h3nd hm]
      simp only [Option.bind]
      exact (gen_spec hg).1
    refine ⟨d, d, ?_, ?_, by simp [jurisdictionEq]⟩
    · unfold jurisdictionFromAlpha2
      rw [hcc2]
      simp only [Option.bind]
      exact hnew
    · unfold jurisdictionFromAlpha3
      rw [hcc3]
      simp only [Option.bind]
      exact hnew
  · intro h c
    simp [jurisdictionEqAlpha2]
  · intro h c
    simp [jurisdictionEqAlpha3]

/-- Witness for C4 at the Norway record of the sample feed. -/
theorem c4_witness :
    jurisdictionEq noDef jeDef = false ∧
    (∃ h2 h3 : Definition,
      jurisdictionFromAlpha2 sampleFeed sampleDefs ⟨noRecord.alpha2⟩ =
        some h2 ∧
      jurisdictionFromAlpha3 sampleFeed sampleDefs ⟨noRecord.alpha3⟩ =
        some h3 ∧
      jurisdictionEq h2 h3 = true) := by
  refine ⟨by decide, ?_⟩
  exact (c4_equality sampleFeed sampleDefs (by decide) (by decide)
    (by decide) (by decide)).2.1 noRecord (by decide)

/-- C8: construction from any generated alpha variant is total: for every
feed record, the country code extracted by the generated match arm exists
and is a key of the Registry, so the lookup and unwrap inside
Jurisdiction::new succeed on that path. -/
theorem c8_total_from_alpha (feed : List Record) (defs : List Definition)
    (hc : compile feed = some defs) :
    ∀ r ∈ feed,
      (∃ cc, alpha2CountryCode feed ⟨r.alpha2⟩ = some cc ∧
        (jurisdictionNew defs cc).isSome) ∧
      (∃ cc, alpha3CountryCode feed ⟨r.alpha3⟩ = some cc ∧
        (jurisdictionNew defs cc).isSome) := by
  intro r hm
  constructor
  · obtain ⟨r', hm', hra, d, hdm, hg, hccEq⟩ :=
      fromAlpha2_spec hc ⟨r, hm, rfl⟩
    exact ⟨d.country_code, hccEq, registryLookup_isSome hdm⟩
  · obtain ⟨r', hm', hra, d, hdm, hg, hccEq⟩ :=
      fromAlpha3_spec hc ⟨r, hm, rfl⟩
    exact ⟨d.country_code, hccEq, registryLookup_isSome hdm⟩

/-- Witness for C8 at the Norway record of the sample feed. -/
theorem c8_witness :
    (∃ cc, alpha2CountryCode sampleFeed ⟨noRecord.alpha2⟩ = some cc ∧
      (jurisdictionNew sampleDefs cc).isSome) ∧
    (∃ cc, alpha3CountryCode sampleFeed ⟨noRecord.alpha3⟩ = some cc ∧
      (jurisdictionNew sampleDefs cc).isSome) :=
  c8_total_from_alpha sampleFeed sampleDefs (by decide) noRecord (by decide)

/-- C5: every handle returned by a reverse query carries the queried
classification value, and the number of returned handles equals the number
of Definitions in the compiled table carrying that value, at every
hierarchy level. -/
theorem c5_reverse_query_fields (feed : List Record) (defs : List Definition)
    (hc : compile feed = some defs)
    (hnd : (defs.map Definition.country_code).Nodup) :
    (∀ v : Region, ∃ hs, in_region feed defs v = some hs ∧
      (∀ h ∈ hs, h.region = v) ∧
      hs.length = (defs.filter (fun d => decide (d.region = v))).length) ∧
    (∀ v : SubRegion, ∃ hs, in_sub_region feed defs v = some hs ∧
      (∀ h ∈ hs, h.sub_region = v) ∧
      hs.length =
        (defs.filter (fun d => decide (d.sub_region = v))).length) ∧
    (∀ v : IntermediateRegion, ∃ hs,
      in_intermediate_region feed defs v = some hs ∧
      (∀ h ∈ hs, h.intermediate_region = v) ∧
      hs.length =
        (defs.filter (fun d => decide (d.intermediate_region = v))).length) := by
  refine ⟨?_, ?_, ?_⟩
  · intro v
    have hq := @query_spec feed defs hc hnd
      (fun r => decide (r.region = v)) (fun d => decide (d.region = v))
      (fun r d hg => by simp [(gen_spec hg).2.2.2.2.1])
    refine ⟨defs.filter (fun d => decide (d.region = v)), hq.1, ?_, rfl⟩
    intro h hmem
    rw [List.mem_filter] at hmem
    simpa using hmem.2
  · intro v
    have hq := @query_spec feed defs hc hnd
      (fun r => decide (r.sub_region = v))
      (fun d => decide (d.sub_region = v))
      (fun r d hg => by simp [(gen_spec hg).2.2.2.2.2.1])
    refine ⟨defs.filter (fun d => decide (d.sub_region = v)), hq.1, ?_, rfl⟩
    intro h hmem
    rw [List.mem_filter] at hmem
    simpa using hmem.2
  · intro v
    have hq := @query_spec feed defs hc hnd
      (fun r => decide (r.intermediate_region = v))
      (fun d => decide (d.intermediate_region = v))
      (fun r d hg => by simp [(gen_spec hg).2.2.2.2.2.2.1])
    refine ⟨defs.filter (fun d => decide (d.intermediate_region = v)),
      hq.1, ?_, rfl⟩
    intro h hmem
    rw [List.mem_filter] at hmem
    simpa using hmem.2

/-- Witness for C5 on the sample artifact at the Europe region. -/
theorem c5_witness :
    ∃ hs, in_region sampleFeed sampleDefs Region.Europe = some hs ∧
      (∀ h ∈ hs, h.region = Region.Europe) ∧
      hs.length = (sampleDefs.filter
        (fun d => decide (d.region = Region.Europe))).length :=
  (c5_reverse_query_fields sampleFeed sampleDefs (by decide)
    (by decide)).1 Region.Europe

/-- C10: each reverse-query result lists its handles in record-feed order:
the returned list is in order-preserving one-to-one correspondence with the
subsequence of feed records carrying the queried value, at every hierarchy
level. -/
theorem c10_feed_order (feed : List Record) (defs : List Definition)
    (hc : compile feed = some defs)
    (hnd : (defs.map Definition.country_code).Nodup) :
    (∀ v : Region, ∃ hs, in_region feed defs v = some hs ∧
      List.Forall₂ gen (feed.filter (fun r => decide (r.region = v))) hs) ∧
    (∀ v : SubRegion, ∃ hs, in_sub_region feed defs v = some hs ∧
      List.Forall₂ gen
        (feed.filter (fun r => decide (r.sub_region = v))) hs) ∧
    (∀ v : IntermediateRegion, ∃ hs,
      in_intermediate_region feed defs v = some hs ∧
      List.Forall₂ gen
        (feed.filter (fun r => decide (r.intermediate_region = v))) hs) := by
  refine ⟨?_, ?_, ?_⟩
  · intro v
    have hq := @query_spec feed defs hc hnd
      (fun r => decide (r.region = v)) (fun d => decide (d.region = v))
      (fun r d hg => by simp [(gen_spec hg).2.2.2.2.1])
    exact ⟨defs.filter (fun d => decide (d.region = v)), hq.1, hq.2⟩
  · intro v
    have hq := @query_spec feed defs hc hnd
      (fun r => decide (r.sub_region = v))
      (fun d => decide (d.sub_region = v))
      (fun r d hg => by simp [(gen_spec hg).2.2.2.2.2.1])
    exact ⟨defs.filter (fun d => decide (d.sub_region = v)), hq.1, hq.2⟩
  · intro v
    have hq := @query_spec feed defs hc hnd
      (fun r => decide (r.intermediate_region = v))
      (fun d => decide (d.intermediate_region = v))
      (fun r d hg => by simp [(gen_spec hg).2.2.2.2.2.2.1])
    exact ⟨defs.filter (fun d => decide (d.intermediate_region = v)),
      hq.1, hq.2⟩

/-- Witness for C10 on the sample artifact at the Europe region. -/
theorem c10_witness :
    ∃ hs, in_region sampleFeed sampleDefs Region.Europe = some hs ∧
      List.Forall₂ gen (sampleFeed.filter
        (fun r => decide (r.region = Region.Europe))) hs :=
  (c10_feed_order sampleFeed sampleDefs (by decide) (by decide)).1
    Region.Europe

end Juris

